import Mathlib

/-!
Verification of the trimmed-statistics engine of the Performance-Evaluation
repository.

The repository's benchmark programs all share one statistics routine,
`calculate_statistics`, duplicated near-verbatim across the twelve C files
(byte-identical within each family: the `double`-sample family, e.g.
`src/Time-operations/signature/non-pq/time-keygen-nonpq.c` lines 108-157,
and the `unsigned long long`-sample family, e.g.
`src/CPU-cycle-operations/key-exc/non-pq/cycles-keygen_nonpq.c` lines 69-118,
which differs only in the element type of the sample array).

Embedding conventions:
* C `double` values are modelled as `ℚ`.  Every constant appearing in the
  code (`0.2`, `1.5`, `1000000`) is exactly representable, and the sample
  values used in the concrete scenarios are small integers, so rational
  arithmetic coincides with the ideal real arithmetic the spec describes.
  The one place the C program can produce a non-number is the division
  `sum / valid_runs` when `valid_runs = 0` (a NaN in C); in `ℚ` division by
  zero yields `0`.  This is discussed at the one claim it affects.
* `unsigned long long` cycle counts embed into `ℚ`; the index arithmetic of
  the two families is identical, so one embedding covers both.
* the C exchange sort (lines 119-127 of time-keygen-nonpq.c) sorts the
  copied array ascending in place; since an ascending reordering of a given
  multiset of values is unique as a list, it is modelled by
  `List.insertionSort (· ≤ ·)`, which produces that same list.
* `exit(EXIT_FAILURE)` is modelled by `Except.error`.
-/

attribute [local semireducible] Rat.mul Rat.add Rat.sub Rat.inv Rat.ofScientific

set_option maxRecDepth 100000

/-- From `int ignore_runs = num_runs * IGNORE_PERCENTAGE;` with
`#define IGNORE_PERCENTAGE 0.2`: the product is truncated to `int`.
For every natural `n` the C computation `(int)(n * 0.2)` equals `⌊n / 5⌋`
(the double nearest `0.2` exceeds `1/5` by less than `2⁻⁵⁴`, too little to
carry any `n * 0.2` in range across an integer), so the exact rational
`0.2` is used. -/
def ignore_runs (num_runs : ℕ) : ℕ := (((num_runs : ℚ) * (0.2 : ℚ)).floor).toNat

/-- From `int effective_runs = num_runs - 2 * ignore_runs;`.  Since
`2 * ⌊n/5⌋ ≤ n` the C `int` value is nonnegative and agrees with the
truncated `ℕ` subtraction. -/
def effective_runs (num_runs : ℕ) : ℕ := num_runs - 2 * ignore_runs num_runs

/-- The ascending sort `sorted_times` of the input array (C lines 115-127 of
time-keygen-nonpq.c: copy, then exchange-sort ascending). -/
def sorted_times (times : List ℚ) : List ℚ := times.insertionSort (· ≤ ·)

/-- Index used for Q1: `ignore_runs + (effective_runs / 4)` (C integer
division). -/
def q1_index (n : ℕ) : ℕ := ignore_runs n + effective_runs n / 4

/-- Index used for Q3: `ignore_runs + (3 * effective_runs / 4)` (C integer
division). -/
def q3_index (n : ℕ) : ℕ := ignore_runs n + 3 * effective_runs n / 4

/-- From `double q1 = sorted_times[ignore_runs + (effective_runs / 4)];`.
The out-of-range default `0` is never used for a nonempty input (the index
is proved in bounds below); for the empty input the C read is out of bounds. -/
def q1 (times : List ℚ) : ℚ := (sorted_times times).getD (q1_index times.length) 0

/-- From `double q3 = sorted_times[ignore_runs + (3 * effective_runs / 4)];`. -/
def q3 (times : List ℚ) : ℚ := (sorted_times times).getD (q3_index times.length) 0

/-- From `double iqr = q3 - q1;`. -/
def iqr (times : List ℚ) : ℚ := q3 times - q1 times

/-- Lower edge of the acceptance band, `q1 - IQR_MULTIPLIER * iqr` with
`#define IQR_MULTIPLIER 1.5`. -/
def band_lo (times : List ℚ) : ℚ := q1 times - (1.5 : ℚ) * iqr times

/-- Upper edge of the acceptance band, `q3 + IQR_MULTIPLIER * iqr`. -/
def band_hi (times : List ℚ) : ℚ := q3 times + (1.5 : ℚ) * iqr times

/-- The filter condition of the three statistics loops:
`sorted_times[i] >= q1 - 1.5*iqr && sorted_times[i] <= q3 + 1.5*iqr`. -/
def in_band (times : List ℚ) (x : ℚ) : Bool :=
  decide (band_lo times ≤ x) && decide (x ≤ band_hi times)

/-- Indices visited by the loops `for (i = ignore_runs; i < num_runs - ignore_runs; i++)`. -/
def window_indices (n : ℕ) : List ℕ := List.range' (ignore_runs n) (n - 2 * ignore_runs n)

/-- The middle window: the values `sorted_times[ignore_runs .. num_runs - ignore_runs - 1]`. -/
def window (times : List ℚ) : List ℚ :=
  (window_indices times.length).map (fun i => (sorted_times times).getD i 0)

/-- The window values passing the band test — exactly the values the three
loops of `calculate_statistics` accumulate over. -/
def valid_set (times : List ℚ) : List ℚ :=
  (window times).filter (fun x => in_band times x)

/-- From the `valid_runs++` loop (C lines 141-146). -/
def valid_runs (times : List ℚ) : ℕ := (valid_set times).length

/-- From the `sum +=` loop (C lines 135-139). -/
def stats_sum (times : List ℚ) : ℚ := (valid_set times).sum

/-- From `*mean = sum / valid_runs;`.  In C the division happens
unconditionally; when `valid_runs = 0` it is `0.0 / 0` (NaN), which the
total `ℚ` division collapses to `0`. -/
def mean (times : List ℚ) : ℚ := stats_sum times / (valid_runs times : ℚ)

/-- From the `sum_sq_diff +=` loop (C lines 150-154):
`(sorted_times[i] - *mean) * (sorted_times[i] - *mean)` accumulated over the
same filtered window. -/
def sum_sq_diff (times : List ℚ) : ℚ :=
  ((valid_set times).map (fun x => (x - mean times) * (x - mean times))).sum

/-- The quantity whose square root the C code stores into `*std_dev`
(`*std_dev = sqrt(sum_sq_diff / valid_runs);`): the population variance of
the valid set.  The (irrational) standard deviation itself is
`Real.sqrt` of this value and is compared through it. -/
def variance (times : List ℚ) : ℚ := sum_sq_diff times / (valid_runs times : ℚ)

/-- The observable result of `calculate_statistics(times, num_runs, &mean, &std_dev)`:
the pair (`*mean`, the radicand of `*std_dev`). -/
def calculate_statistics (times : List ℚ) : ℚ × ℚ := (mean times, variance times)

/-- Population mean of a list of values (used to state the spec's
"population standard deviation of {11..40}"). -/
def specPopMean (l : List ℚ) : ℚ := l.sum / (l.length : ℚ)

/-- Population variance of a list of values: the spec-side reference
quantity whose square root is the population standard deviation. -/
def specPopVariance (l : List ℚ) : ℚ :=
  (l.map (fun x => (x - specPopMean l) * (x - specPopMean l))).sum / (l.length : ℚ)

/-- Spec-side engine for the error contract: the spec requires `summarize`
to signal a distinct "no valid samples" error when `validCount = 0` instead
of producing NaN.  Written from the spec's words, to be compared with the
C `calculate_statistics`, which has no error path. -/
def summarizeSpec (times : List ℚ) : Except Unit (ℚ × ℚ) :=
  if valid_runs times = 0 then Except.error () else Except.ok (calculate_statistics times)

/-- Scenario A of the spec: the integers 1..50 as samples. -/
def scenarioA : List ℚ := (List.range 50).map (fun i => (i : ℚ) + 1)

/-- Scenario B of the spec: Scenario A with the value 26 (arrival index 25)
replaced by 100000. -/
def scenarioB : List ℚ :=
  (List.range 50).map (fun i => if i = 25 then (100000 : ℚ) else (i : ℚ) + 1)

/-- The integers 1..50 in decreasing arrival order 50, 49, ..., 1: a
maximally unsorted arrival order of the Scenario A values, used to witness
the arrival-order-independence of the statistics. -/
def scenarioAReversed : List ℚ := scenarioA.reverse

/-- Data forwarded to the plotting sink by `plot_times` (time-keygen-nonpq.c
lines 159-198): the y values are `times_microseconds[i]` for
`i = ignore_runs .. NUM_RUNS - ignore_runs - 1`, where
`times_microseconds[i] = times[i] * 1000000` — read from the arrival-order
input array `times`, which `plot_times` never sorts.  (`plot_cycles` in the
cycle family is identical except for the microsecond scaling.) -/
def plot_times_y (times : List ℚ) : List ℚ :=
  (window_indices times.length).map (fun i => times.getD i 0 * 1000000)

/-- Provider-visible outcome of one iteration of the benchmark loop of
`main` in time-signverify-pq.c (lines 238-244): the measured signing time,
the value `EVP_VerifyFinal` returns inside `verify_signature` (1 on
success), and the measured verification time. -/
structure IterOutcome where
  sign_time : ℚ
  verify_result : ℤ
  verify_time : ℚ

/-- From `verify_signature` (time-signverify-pq.c lines 67-90): the
elapsed time is measured, then `if (verify_result != 1)` the process
exits with `EXIT_FAILURE` (modelled as `Except.error ()`); otherwise the
time is returned. -/
def verify_signature (verify_result : ℤ) (time_taken : ℚ) : Except Unit ℚ :=
  if verify_result ≠ 1 then Except.error () else Except.ok time_taken

/-- The iteration loop of `main` (time-signverify-pq.c lines 238-244):
each iteration signs (appending to `sign_times`) and verifies (appending
to `verify_times`); a failing verification exits the process at once, so
no later iteration runs and no time arrays are produced. -/
def collect_times : List IterOutcome → Except Unit (List ℚ × List ℚ)
  | [] => Except.ok ([], [])
  | o :: rest =>
    match verify_signature o.verify_result o.verify_time with
    | Except.error e => Except.error e
    | Except.ok vt =>
      match collect_times rest with
      | Except.error e => Except.error e
      | Except.ok (ss, vs) => Except.ok (o.sign_time :: ss, vt :: vs)

/-- The per-algorithm benchmark of `main` (time-signverify-pq.c lines
234-249): run the loop, then compute `calculate_statistics` on the sign
and verify time arrays.  If any iteration's verification failed, the
process has already exited and no summary is emitted. -/
def run_sign_verify (outcomes : List IterOutcome) : Except Unit ((ℚ × ℚ) × (ℚ × ℚ)) :=
  match collect_times outcomes with
  | Except.error e => Except.error e
  | Except.ok (ss, vs) => Except.ok (calculate_statistics ss, calculate_statistics vs)

/-! ### Helper lemmas -/

/-- Batteries' `Rat.floor` agrees with the `Int.floor` of the `FloorRing`
instance. -/
theorem rat_floor_eq_int_floor (q : ℚ) : q.floor = ⌊q⌋ :=
  (Rat.floor_def' q).trans Rat.floor_def.symm

/-- The trim count is `⌊n / 5⌋`. -/
theorem ignore_runs_eq (n : ℕ) : ignore_runs n = n / 5 := by
  have h02 : (0.2 : ℚ) = 1 / 5 := by decide
  have h1 : ((n : ℚ) * (0.2 : ℚ)) = ((n : ℕ) : ℚ) / ((5 : ℕ) : ℚ) := by
    rw [h02]; push_cast; ring
  rw [ignore_runs, h1, rat_floor_eq_int_floor, Rat.floor_natCast_div_natCast]
  omega

theorem sorted_times_length (t : List ℚ) : (sorted_times t).length = t.length := by
  unfold sorted_times
  exact List.length_insertionSort _ t

theorem sorted_times_sorted (t : List ℚ) : (sorted_times t).Sorted (· ≤ ·) :=
  List.sorted_insertionSort _ t

/-- The sorted array depends only on the multiset of samples, not on
their arrival order: two inputs that are permutations of each other sort
to the same list (an ascending reordering of a multiset is unique). -/
theorem sorted_times_eq_of_perm (t t' : List ℚ) (h : t.Perm t') :
    sorted_times t = sorted_times t' := by
  refine List.eq_of_perm_of_sorted ?_ (sorted_times_sorted t) (sorted_times_sorted t')
  exact ((List.perm_insertionSort _ t).trans h).trans (List.perm_insertionSort _ t').symm

/-- Monotonicity of reads from the sorted array. -/
theorem sorted_getD_mono (t : List ℚ) {i j : ℕ} (hij : i ≤ j) (hj : j < t.length) :
    (sorted_times t).getD i 0 ≤ (sorted_times t).getD j 0 := by
  have hj' : j < (sorted_times t).length := by rw [sorted_times_length]; exact hj
  have hi' : i < (sorted_times t).length := lt_of_le_of_lt hij hj'
  rw [List.getD_eq_getElem?_getD, List.getD_eq_getElem?_getD,
    List.getElem?_eq_getElem hi', List.getElem?_eq_getElem hj']
  exact (sorted_times_sorted t).rel_get_of_le (a := ⟨i, hi'⟩) (b := ⟨j, hj'⟩) hij

/-- A sorted-array read at an index of the middle window is a member of
the window. -/
theorem getD_mem_window (t : List ℚ) {i : ℕ} (h1 : ignore_runs t.length ≤ i)
    (h2 : i < t.length - ignore_runs t.length) :
    (sorted_times t).getD i 0 ∈ window t := by
  refine List.mem_map.mpr ⟨i, ?_, rfl⟩
  rw [window_indices, List.mem_range'_1]
  omega

theorem q1_index_ge (n : ℕ) : ignore_runs n ≤ q1_index n := Nat.le_add_right _ _

theorem q1_index_lt (n : ℕ) (h : 1 ≤ n) : q1_index n < n - ignore_runs n := by
  rw [q1_index, effective_runs, ignore_runs_eq]
  omega

theorem q3_index_ge (n : ℕ) : ignore_runs n ≤ q3_index n := Nat.le_add_right _ _

theorem q3_index_lt (n : ℕ) (h : 1 ≤ n) : q3_index n < n - ignore_runs n := by
  rw [q3_index, effective_runs, ignore_runs_eq]
  omega

theorem q1_index_le_q3_index (n : ℕ) : q1_index n ≤ q3_index n := by
  rw [q1_index, q3_index]
  omega

theorem q1_le_q3 (t : List ℚ) (h : 1 ≤ t.length) : q1 t ≤ q3 t := by
  rw [q1, q3]
  refine sorted_getD_mono t (q1_index_le_q3_index t.length) ?_
  have := q3_index_lt t.length h
  omega

/-- The value read as Q1 always satisfies the acceptance-band test. -/
theorem in_band_q1 (t : List ℚ) (h : 1 ≤ t.length) : in_band t (q1 t) = true := by
  have hq := q1_le_q3 t h
  have h15 : (0 : ℚ) ≤ (1.5 : ℚ) * iqr t := by
    rw [iqr]
    have : (1.5 : ℚ) = 3 / 2 := by decide
    rw [this]
    nlinarith
  rw [in_band, Bool.and_eq_true, decide_eq_true_iff, decide_eq_true_iff, band_lo, band_hi]
  constructor
  · linarith
  · rw [iqr] at h15 ⊢
    linarith

/-- Every nonempty sample sequence has at least one valid run: the value
read as Q1 lies in the middle window and inside the band. -/
theorem valid_runs_pos (t : List ℚ) (h : 1 ≤ t.length) : 1 ≤ valid_runs t := by
  have hmem : q1 t ∈ valid_set t := by
    rw [valid_set]
    refine List.mem_filter.mpr ⟨?_, in_band_q1 t h⟩
    exact getD_mem_window t (q1_index_ge t.length) (q1_index_lt t.length h)
  rw [valid_runs]
  exact List.length_pos.mpr (List.ne_nil_of_mem hmem)

/-! ### Claim theorems -/

/-- C1: for sample values that are exactly the integers 1..50 in any
arrival order (any permutation of Scenario A's values) with N = 50,
`calculate_statistics` yields the middle window `sorted[10..39]` = 11..40,
Q1 = sorted[17] = 18, Q3 = sorted[32] = 33, IQR = 15, acceptance band
[-4.5, 55.5], all 30 window values valid (validCount = 30), mean = 25.5,
and a standard deviation equal to the population standard deviation of
{11..40}: the radicand passed to `sqrt` equals the population variance
899/12 of {11..40}, hence the standard deviations agree; two conjuncts
bracket `899/12` between `8.65²` and `8.66²`, so the standard deviation is
8.65..8.66 (its value is √(899/12) = 8.6555…, the spec's "approximately
8.654").  Every statistic factors through the sorted array and the length,
both arrival-order invariants, so the concrete evaluation at the
increasing order settles every arrival order. -/
theorem claim_C1_scenarioA (t : List ℚ) (h : t.Perm scenarioA) :
    (window t = (List.range' 11 30).map (fun v => (v : ℚ)) ∧
      q1 t = 18 ∧ q3 t = 33 ∧ iqr t = 15 ∧
      band_lo t = -(9 / 2) ∧ band_hi t = 111 / 2 ∧
      valid_set t = window t ∧ valid_runs t = 30 ∧
      mean t = 51 / 2 ∧
      variance t = specPopVariance ((List.range' 11 30).map (fun v => (v : ℚ))) ∧
      variance t = 899 / 12 ∧
      (865 / 100 : ℚ) * (865 / 100) < variance t ∧
      variance t < (866 / 100 : ℚ) * (866 / 100)) ∧
    Real.sqrt (variance t : ℝ) =
      Real.sqrt ((specPopVariance ((List.range' 11 30).map (fun v => (v : ℚ))) : ℝ)) := by
  have hs : sorted_times t = sorted_times scenarioA := sorted_times_eq_of_perm t scenarioA h
  have hl : t.length = scenarioA.length := h.length_eq
  have hw : window t = window scenarioA := by simp only [window, hs, hl]
  have hq1 : q1 t = q1 scenarioA := by simp only [q1, hs, hl]
  have hq3 : q3 t = q3 scenarioA := by simp only [q3, hs, hl]
  have hiqr : iqr t = iqr scenarioA := by simp only [iqr, hq1, hq3]
  have hlo : band_lo t = band_lo scenarioA := by simp only [band_lo, hq1, hiqr]
  have hhi : band_hi t = band_hi scenarioA := by simp only [band_hi, hq3, hiqr]
  have hvs : valid_set t = valid_set scenarioA := by
    simp only [valid_set, in_band, hw, hlo, hhi]
  have hvr : valid_runs t = valid_runs scenarioA := by simp only [valid_runs, hvs]
  have hmean : mean t = mean scenarioA := by simp only [mean, stats_sum, hvs, hvr]
  have hvar : variance t = variance scenarioA := by
    simp only [variance, sum_sq_diff, hvs, hvr, hmean]
  rw [hw, hq1, hq3, hiqr, hlo, hhi, hvs, hvr, hmean, hvar]
  refine ⟨by decide, ?_⟩
  have hv : variance scenarioA = specPopVariance ((List.range' 11 30).map (fun v => (v : ℚ))) := by
    decide
  rw [hv]

/-- Witness for C1 at the decreasing arrival order 50, 49, ..., 1, which
the ascending sort genuinely has to reorder. -/
theorem claim_C1_scenarioA_witness :
    (window scenarioAReversed = (List.range' 11 30).map (fun v => (v : ℚ)) ∧
      q1 scenarioAReversed = 18 ∧ q3 scenarioAReversed = 33 ∧ iqr scenarioAReversed = 15 ∧
      band_lo scenarioAReversed = -(9 / 2) ∧ band_hi scenarioAReversed = 111 / 2 ∧
      valid_set scenarioAReversed = window scenarioAReversed ∧
      valid_runs scenarioAReversed = 30 ∧
      mean scenarioAReversed = 51 / 2 ∧
      variance scenarioAReversed =
        specPopVariance ((List.range' 11 30).map (fun v => (v : ℚ))) ∧
      variance scenarioAReversed = 899 / 12 ∧
      (865 / 100 : ℚ) * (865 / 100) < variance scenarioAReversed ∧
      variance scenarioAReversed < (866 / 100 : ℚ) * (866 / 100)) ∧
    Real.sqrt (variance scenarioAReversed : ℝ) =
      Real.sqrt ((specPopVariance ((List.range' 11 30).map (fun v => (v : ℚ))) : ℝ)) :=
  claim_C1_scenarioA scenarioAReversed (List.reverse_perm scenarioA)

/-- C2 counterexample: the claim asserts that in Scenario B the replaced
value 100000 lies in the head/tail window and is excluded only by the IQR
band, giving validCount = 29.  On the code, 100000 is the largest sample,
so the ascending sort places it at index 49, inside the top ignored tail:
it is not in the window at all, and all 30 window values pass the band
test, so validCount = 30, not 29. -/
theorem claim_C2_counterexample :
    (100000 : ℚ) ∈ scenarioB ∧ (100000 : ℚ) ∉ window scenarioB ∧
    valid_runs scenarioB = 30 := by decide

/-- C2 amended: in Scenario B the value 100000 is excluded by the head/tail
trim (it sorts into the top ignored tail), not by the IQR band; the window
is {11..25, 27..41}, validCount = 30, mean = 26; the mean is strictly less
than the mean that would result from also including the outlier in the
valid set, and the variance (radicand of the standard deviation, which
`sqrt` preserves in order) is strictly less than if the outlier had been
included. -/
theorem claim_C2_amended :
    (100000 : ℚ) ∈ scenarioB ∧ (100000 : ℚ) ∉ window scenarioB ∧
    valid_runs scenarioB = 30 ∧ mean scenarioB = 26 ∧ variance scenarioB = 248 / 3 ∧
    mean scenarioB < specPopMean (valid_set scenarioB ++ [100000]) ∧
    variance scenarioB < specPopVariance (valid_set scenarioB ++ [100000]) := by decide

/-- C3: with N = 50 and ignoreFraction = 0.2 the code computes
ignoreCount = 10 by integer truncation of 50 × 0.2, effectiveCount = 30,
and reads Q1 and Q3 at 0-based indices 17 and 32 of the full sorted
array (not of a re-indexed trimmed copy). -/
theorem claim_C3_quartile_indices :
    ignore_runs 50 = 10 ∧ effective_runs 50 = 30 ∧
    q1_index 50 = 17 ∧ q3_index 50 = 32 ∧
    (∀ t : List ℚ, t.length = 50 →
      q1 t = (sorted_times t).getD 17 0 ∧ q3 t = (sorted_times t).getD 32 0) := by
  refine ⟨by decide, by decide, by decide, by decide, fun t ht => ⟨?_, ?_⟩⟩
  · show (sorted_times t).getD (q1_index t.length) 0 = _
    rw [ht, show q1_index 50 = 17 from by decide]
  · show (sorted_times t).getD (q3_index t.length) 0 = _
    rw [ht, show q3_index 50 = 32 from by decide]

/-- Witness for C3 at the concrete 50-sample input of Scenario A. -/
theorem claim_C3_quartile_indices_witness :
    q1 scenarioA = (sorted_times scenarioA).getD 17 0 ∧
    q3 scenarioA = (sorted_times scenarioA).getD 32 0 :=
  claim_C3_quartile_indices.2.2.2.2 scenarioA (by decide)

/-- C4 counterexample: `calculate_statistics` has no "no valid samples"
error path.  At the one input family with validCount = 0 (the empty
sequence; every nonempty sequence has validCount ≥ 1, see the amended
theorem) the C code reads `sorted_times[0]` out of bounds and then divides
`0.0 / 0`, producing NaN — modelled here as the out-of-range default 0 and
the total division `0 / 0 = 0` — while the spec-side engine signals the
distinct error.  The code therefore produces a numeric summary, not the
required error. -/
theorem claim_C4_counterexample :
    valid_runs ([] : List ℚ) = 0 ∧
    summarizeSpec ([] : List ℚ) = Except.error () ∧
    calculate_statistics ([] : List ℚ) = (0, 0) :=
  ⟨by decide, by rfl, by decide⟩

/-- C4 amended: the engine never signals a "no valid samples" error — it
divides by validCount unconditionally — but for every nonempty sample
sequence validCount ≥ 1, so the divisor is nonzero, no NaN/Inf arises, and
the code agrees with the spec-side engine (whose error branch is
unreachable there). -/
theorem claim_C4_amended (t : List ℚ) (h : t ≠ []) :
    1 ≤ valid_runs t ∧ summarizeSpec t = Except.ok (calculate_statistics t) := by
  have hl : 1 ≤ t.length := List.length_pos.mpr h
  have hv := valid_runs_pos t hl
  refine ⟨hv, ?_⟩
  unfold summarizeSpec
  rw [if_neg (by omega)]

/-- Witness for the amended C4 at a concrete nonempty input. -/
theorem claim_C4_amended_witness :
    1 ≤ valid_runs [(1 : ℚ), 2, 3] ∧
    summarizeSpec [(1 : ℚ), 2, 3] = Except.ok (calculate_statistics [(1 : ℚ), 2, 3]) :=
  claim_C4_amended [1, 2, 3] (by decide)

/-- C5 counterexample: the claim says the subsequence forwarded for
charting is the middle window of the ascending-sorted samples.  On the
code (`plot_times`), the y values are taken from the arrival-order input
array, which is never sorted: for the input [5,4,3,2,1] (N = 5,
ignoreCount = 1) the plotted values are [4,3,2]·10⁶ while the sorted
middle window would be [2,3,4]·10⁶. -/
theorem claim_C5_counterexample :
    plot_times_y [(5 : ℚ), 4, 3, 2, 1] = [4000000, 3000000, 2000000] ∧
    (window [(5 : ℚ), 4, 3, 2, 1]).map (fun x => x * 1000000) =
      [2000000, 3000000, 4000000] ∧
    plot_times_y [(5 : ℚ), 4, 3, 2, 1] ≠
      (window [(5 : ℚ), 4, 3, 2, 1]).map (fun x => x * 1000000) := by decide

/-- C5 amended: the subsequence forwarded to the plotting sink is the
head/tail-trimmed middle slice of the arrival-order (unsorted) sample
sequence — entry i of the plot data is sample `ignoreCount + i` in run
order, scaled to microseconds — taken before any IQR filtering (its length
is always the full effectiveCount, regardless of the band). -/
theorem claim_C5_amended (t : List ℚ) :
    (plot_times_y t).length = t.length - 2 * ignore_runs t.length ∧
    ∀ i : ℕ, i < (plot_times_y t).length →
      (plot_times_y t).getD i 0 = t.getD (ignore_runs t.length + i) 0 * 1000000 := by
  have hlen : (plot_times_y t).length = t.length - 2 * ignore_runs t.length := by
    simp only [plot_times_y, List.length_map, window_indices, List.length_range']
  refine ⟨hlen, fun i hi => ?_⟩
  rw [hlen] at hi
  show ((window_indices t.length).map (fun j => t.getD j 0 * 1000000)).getD i 0 = _
  rw [List.getD_eq_getElem?_getD, List.getElem?_map]
  simp only [window_indices]
  rw [List.getElem?_range' _ _ hi]
  simp

/-- Witness for the amended C5 at a concrete input. -/
theorem claim_C5_amended_witness :
    (plot_times_y [(5 : ℚ), 4, 3, 2, 1]).getD 0 0 =
      ([(5 : ℚ), 4, 3, 2, 1]).getD (ignore_runs 5 + 0) 0 * 1000000 :=
  (claim_C5_amended [5, 4, 3, 2, 1]).2 0 (by decide)

/-- C6: whenever validCount ≥ 1 (stated as positivity of the valid set's
length, which is definitionally validCount), the mean computed by the
engine lies within [min(validSet), max(validSet)]. -/
theorem claim_C6_mean_in_range (t : List ℚ) (h : 0 < (valid_set t).length) :
    (valid_set t).minimum_of_length_pos h ≤ mean t ∧
    mean t ≤ (valid_set t).maximum_of_length_pos h := by
  have hlen : (0 : ℚ) < ((valid_set t).length : ℚ) := by exact_mod_cast h
  constructor
  · have hmin : ∀ x ∈ valid_set t, (valid_set t).minimum_of_length_pos h ≤ x :=
      fun x hx => List.minimum_of_length_pos_le_of_mem hx h
    have hsum := List.card_nsmul_le_sum (valid_set t) _ hmin
    rw [nsmul_eq_mul] at hsum
    show (valid_set t).minimum_of_length_pos h ≤
      (valid_set t).sum / ((valid_set t).length : ℚ)
    rw [le_div_iff₀ hlen]
    calc (valid_set t).minimum_of_length_pos h * ((valid_set t).length : ℚ)
        = ((valid_set t).length : ℚ) * (valid_set t).minimum_of_length_pos h := mul_comm _ _
      _ ≤ (valid_set t).sum := hsum
  · have hmax : ∀ x ∈ valid_set t, x ≤ (valid_set t).maximum_of_length_pos h :=
      fun x hx => List.le_maximum_of_length_pos_of_mem hx h
    have hsum := List.sum_le_card_nsmul (valid_set t) _ hmax
    rw [nsmul_eq_mul] at hsum
    show (valid_set t).sum / ((valid_set t).length : ℚ) ≤
      (valid_set t).maximum_of_length_pos h
    rw [div_le_iff₀ hlen]
    calc (valid_set t).sum
        ≤ ((valid_set t).length : ℚ) * (valid_set t).maximum_of_length_pos h := hsum
      _ = (valid_set t).maximum_of_length_pos h * ((valid_set t).length : ℚ) := mul_comm _ _

/-- Witness for C6 at a concrete input with a nonempty valid set. -/
theorem claim_C6_mean_in_range_witness :
    (valid_set [(1 : ℚ), 2, 3]).minimum_of_length_pos (by decide) ≤ mean [(1 : ℚ), 2, 3] ∧
    mean [(1 : ℚ), 2, 3] ≤ (valid_set [(1 : ℚ), 2, 3]).maximum_of_length_pos (by decide) :=
  claim_C6_mean_in_range [1, 2, 3] (by decide)

/-- C7: the statistics computation is deterministic — it is a pure
function of the sample array alone (the C function reads only its array
argument and compile-time constants and writes only its out-parameters,
which the embedding makes structural), so equal inputs give identical
mean and standard-deviation outputs. -/
theorem claim_C7_deterministic (t₁ t₂ : List ℚ) (h : t₁ = t₂) :
    calculate_statistics t₁ = calculate_statistics t₂ := by rw [h]

/-- Witness for C7: the two runs on Scenario B coincide. -/
theorem claim_C7_deterministic_witness :
    calculate_statistics scenarioB = calculate_statistics scenarioB :=
  claim_C7_deterministic scenarioB scenarioB rfl

/-- C8: if the provider's verification returns anything other than 1
(false or error) at some iteration, the run for that (variant, operation)
terminates immediately — whatever the later iterations would have
returned — and no statistics are emitted for it. -/
theorem claim_C8_fatal_abort (pre : List IterOutcome) (bad : IterOutcome)
    (rest : List IterOutcome) (h : bad.verify_result ≠ 1) :
    run_sign_verify (pre ++ bad :: rest) = Except.error () := by
  have hc : collect_times (pre ++ bad :: rest) = Except.error () := by
    induction pre with
    | nil =>
      rw [List.nil_append]
      simp only [collect_times, verify_signature, if_pos h]
    | cons o pre ih =>
      rw [List.cons_append]
      simp only [collect_times, ih]
      cases verify_signature o.verify_result o.verify_time <;> rfl
  unfold run_sign_verify
  rw [hc]

/-- Witness for C8: a failing verification in the sole iteration aborts
the run. -/
theorem claim_C8_fatal_abort_witness :
    run_sign_verify ([] ++ (⟨3, 0, 4⟩ : IterOutcome) :: []) = Except.error () :=
  claim_C8_fatal_abort [] ⟨3, 0, 4⟩ [] (by decide)

/-- C9: for every N with effectiveCount ≥ 1 (which includes every N whose
effectiveCount lies in [1, 4) and every larger N), the Q1 and Q3 indices
are in bounds for the sorted array of N elements — no out-of-bounds
access. -/
theorem claim_C9_index_bounds (n : ℕ) (h : 1 ≤ effective_runs n) :
    q1_index n < n ∧ q3_index n < n ∧
    (∀ t : List ℚ, t.length = n →
      q1_index n < (sorted_times t).length ∧ q3_index n < (sorted_times t).length) := by
  have hn : 1 ≤ n := by
    by_contra hc
    rw [effective_runs, ignore_runs_eq] at h
    omega
  have h1 := q1_index_lt n hn
  have h3 := q3_index_lt n hn
  refine ⟨by omega, by omega, fun t ht => ?_⟩
  rw [sorted_times_length, ht]
  omega

/-- Witness for C9 at N = 3, where effectiveCount = 3 < 4. -/
theorem claim_C9_index_bounds_witness :
    q1_index 3 < 3 ∧ q3_index 3 < 3 ∧
    (q1_index 3 < (sorted_times [(5 : ℚ), 6, 7]).length ∧
      q3_index 3 < (sorted_times [(5 : ℚ), 6, 7]).length) :=
  ⟨(claim_C9_index_bounds 3 (by decide)).1, (claim_C9_index_bounds 3 (by decide)).2.1,
    (claim_C9_index_bounds 3 (by decide)).2.2 [5, 6, 7] (by decide)⟩

/-- C10: for every input with effectiveCount ≥ 1, the sorted value at the
Q1 index lies in the middle window and inside the acceptance band, so
valid_runs ≥ 1 and the divisor of the mean and standard-deviation
divisions is nonzero: the validCount = 0 case is unreachable for such
inputs. -/
theorem claim_C10_no_div_by_zero (t : List ℚ) (h : 1 ≤ effective_runs t.length) :
    q1 t ∈ window t ∧ in_band t (q1 t) = true ∧
    1 ≤ valid_runs t ∧ (valid_runs t : ℚ) ≠ 0 := by
  have hn : 1 ≤ t.length := by
    by_contra hc
    rw [effective_runs, ignore_runs_eq] at h
    omega
  have hv := valid_runs_pos t hn
  refine ⟨?_, in_band_q1 t hn, hv, ?_⟩
  · show (sorted_times t).getD (q1_index t.length) 0 ∈ window t
    exact getD_mem_window t (q1_index_ge _) (q1_index_lt _ hn)
  · exact Nat.cast_ne_zero.mpr (by omega)

/-- Witness for C10 at a concrete one-element input. -/
theorem claim_C10_no_div_by_zero_witness :
    q1 [(7 : ℚ)] ∈ window [(7 : ℚ)] ∧ in_band [(7 : ℚ)] (q1 [(7 : ℚ)]) = true ∧
    1 ≤ valid_runs [(7 : ℚ)] ∧ (valid_runs [(7 : ℚ)] : ℚ) ≠ 0 :=
  claim_C10_no_div_by_zero [7] (by decide)

